import Mathlib

/-!
# Verification of the sales-connector lead pipeline

A shallow embedding of the core pipeline of the `sales-connector-modular`
repository: phone normalization (`core/utils.py: normalize_phone`), the filter
chain (`filter_internal_test_emails`, `filter_sms_already_sent`,
`filter_deals_by_appointment_id_car_active_purchases`), identity deduplication
(`dedupe_users`, `dedupe_users_with_audit`), and round-robin assignment
(`core/roster.py: round_robin_assign`), together with the workflow-level filter
composition in `workflows/reminders.py: view_reminders` and
`workflows/old_leads.py: view_old`.

Pandas DataFrames are modelled as `List Deal` (one element per row, with the
columns guaranteed by `prepare_deals` as record fields); NaN-able columns are
`Option`-valued.  External HubSpot calls are modelled as oracle functions passed
in explicitly, with `none` standing for a failed HTTP lookup.  Python string
operations (`strip`, `lower`, `split`, membership) are re-implemented
structurally below so that all definitions evaluate inside the kernel.
-/

namespace SalesConnector

/-! ## Python string primitives, modelled over `List Char` -/

/-- Python `str.strip()` on the underlying character list: drop leading and
trailing whitespace. -/
def stripChars (l : List Char) : List Char :=
  ((l.dropWhile Char.isWhitespace).reverse.dropWhile Char.isWhitespace).reverse

/-- Python `str.strip()`. -/
def pyStrip (s : String) : String := ⟨stripChars s.data⟩

/-- Python `str.lower()` (ASCII, which is all this codebase feeds it). -/
def pyLower (s : String) : String := ⟨s.data.map Char.toLower⟩

/-- Split a character list at every character satisfying `p`, keeping empty
segments (the behaviour of Python `str.split(sep)` for a one-character `sep`
when `p` is equality with `sep`). -/
def splitChars (p : Char → Bool) (l : List Char) : List (List Char) :=
  l.foldr
    (fun c acc =>
      match acc with
      | cur :: rest => if p c then [] :: cur :: rest else (c :: cur) :: rest
      | [] => [[c]])
    [[]]

/-- Python `s.split(sep)` for a single-character separator. -/
def pySplitOn (sep : Char) (s : String) : List String :=
  (splitChars (· = sep) s.data).map List.asString

/-- Python `s.split()` (split on whitespace runs, discarding empty pieces). -/
def pySplitWs (s : String) : List String :=
  ((splitChars Char.isWhitespace s.data).filter (· ≠ [])).map List.asString

/-- Python `needle in hay` substring test. -/
def strContainsB (hay needle : String) : Bool :=
  hay.data.tails.any (fun t => needle.data.isPrefixOf t)

/-- Python `str.capitalize()`: first character uppercased, the rest lowered. -/
def pyCapitalize (s : String) : String :=
  match s.data with
  | [] => ""
  | c :: cs => ⟨c.toUpper :: cs.map Char.toLower⟩

/-- Code-point lexicographic strict order on character lists: the order Python
and pandas use when comparing or sorting strings. -/
def charListLtB : List Char → List Char → Bool
  | _, [] => false
  | [], _ :: _ => true
  | a :: as, b :: bs => if a < b then true else if a = b then charListLtB as bs else false

/-- Python `<` on strings. -/
def strLtB (a b : String) : Bool := charListLtB a.data b.data

/-- Python `<=` on strings. -/
def strLeB (a b : String) : Bool := strLtB a b || a == b

/-- Ascending lexicographic sort of strings (Python `sorted` on a set of
strings). `insertionSort` is a stable sort, matching CPython's `sorted`. -/
def sortStringsAsc (l : List String) : List String :=
  l.insertionSort (fun a b => strLeB a b = true)

/-- First-occurrence deduplication with an accumulator of already-seen
elements; `pyDedup` models the element set of a Python `set(...)` /
`dict` key iteration (membership is what the callers rely on; where the
source iterates an unordered `set`, the result it builds is
order-independent). -/
def pyDedupAux [BEq α] (seen : List α) : List α → List α
  | [] => []
  | a :: as =>
    if seen.contains a then pyDedupAux seen as else a :: pyDedupAux (a :: seen) as

/-- Deduplicate, keeping first occurrences. -/
def pyDedup [BEq α] (l : List α) : List α := pyDedupAux [] l

/-! ## Calendar dates

Python `datetime.date` values are modelled by their year/month/day fields.
Comparison and day-differences go through the standard civil-calendar
day-count (derived from the usual days-from-civil algorithm), which agrees
with Python's date ordering and subtraction on all valid dates. -/

/-- A calendar date as carried by `datetime.date` (year ≥ 1, valid month/day). -/
structure MDate where
  year : Nat
  month : Nat
  day : Nat
deriving DecidableEq

/-- Day count of a civil date (days-from-civil, without the epoch shift;
strictly monotone in calendar order, which is all the code needs). -/
def mdateDays (d : MDate) : Nat :=
  let y := if d.month ≤ 2 then d.year - 1 else d.year
  let era := y / 400
  let yoe := y % 400
  let mp := if 3 ≤ d.month then d.month - 3 else d.month + 9
  let doy := (153 * mp + 2) / 5 + d.day - 1
  let doe := yoe * 365 + yoe / 4 - yoe / 100 + doy
  era * 146097 + doe

/-- Python `d2 > d1` on dates. -/
def mdateGtB (a b : MDate) : Bool := mdateDays b < mdateDays a

/-- Python `(d - today).days`. -/
def mdateDiff (d today : MDate) : Int := (mdateDays d : Int) - (mdateDays today : Int)

/-- English month abbreviations used by `strftime("%b")`. -/
def monthAbbrev (m : Nat) : String :=
  ["Jan", "Feb", "Mar", "Apr", "May", "Jun",
   "Jul", "Aug", "Sep", "Oct", "Nov", "Dec"].getD (m - 1) ""

/-- `strftime("%d")`: zero-padded day of month. -/
def pad2 (n : Nat) : String := if n < 10 then "0" ++ toString n else toString n

/-! ## Configuration constants (`config.py`) -/

def STAGE_ENQUIRY_ID : String := "1119198251"
def STAGE_BOOKED_ID : String := "1119198252"
def STAGE_CONDUCTED_ID : String := "1119198253"

def ACTIVE_PURCHASE_STAGE_IDS : List String :=
  ["8082239", "8082240", "8082241", "8082242", "8082243", "8406593",
   "14816089", "14804235", "14804236", "14804237", "14804238",
   "14804239", "14804240"]

/-- The two blacklisted email domains of `filter_internal_test_emails`. -/
def internalTestDomains : List String := ["cars24.com", "yopmail.com"]

/-! ## `normalize_phone` (`core/utils.py`, lines 65-74)

The raw argument can be `None`/NaN (modelled `none`) or an arbitrary value
stringified by Python (modelled as the resulting string). -/

/-- The digit-extraction step: keep a leading `+` of the stripped string, then
every digit character, in order. -/
def phoneDigits (s : List Char) : List Char :=
  if s.headD ' ' = '+' then '+' :: s.filter Char.isDigit else s.filter Char.isDigit

/-- The Australian rewriting rules of `normalize_phone`, applied to the
extracted digit string, in the source's priority order. -/
def phoneRules (digits : List Char) : List Char :=
  if digits.take 3 = ['+', '6', '1'] ∧ digits.length = 12 then digits
  else if digits.take 2 = ['6', '1'] ∧ digits.length = 11 then '+' :: digits
  else if digits.headD ' ' = '0' ∧ digits.length = 10 ∧ digits.getD 1 ' ' = '4' then
    ['+', '6', '1'] ++ digits.drop 1
  else if digits.headD ' ' = '4' ∧ digits.length = 9 then ['+', '6', '1'] ++ digits
  else []

/-- `normalize_phone`: `none` models `raw is None` / `pd.isna(raw)`. -/
def normalize_phone (raw : Option String) : String :=
  match raw with
  | none => ""
  | some r => ⟨phoneRules (phoneDigits (pyStrip r).data)⟩

/-- The shape `^\+61\d{9}$` as a decidable predicate on the result string. -/
def phoneShapeB (s : String) : Bool :=
  s.data.length = 12 && s.data.take 3 = ['+', '6', '1'] && (s.data.drop 3).all Char.isDigit

/-! ## Date formatting helpers (`core/utils.py`) -/

/-- `format_date_au`: `strftime("%d %b %Y")` for a date, `""` for a non-date. -/
def format_date_au : Option MDate → String
  | none => ""
  | some d => pad2 d.day ++ " " ++ monthAbbrev d.month ++ " " ++ toString d.year

/-- `rel_date`: relative phrasing of `d` against `today`.  The source reads
"today" from the wall clock (`datetime.now(MEL_TZ).date()`); it is passed
explicitly here.  A non-date argument yields `""`. -/
def rel_date (today : MDate) : Option MDate → String
  | none => ""
  | some d =>
    let diff := mdateDiff d today
    if diff = 0 then "today"
    else if diff = 1 then "tomorrow"
    else if diff = -1 then "yesterday"
    else if 1 < diff ∧ diff ≤ 7 then "in a few days"
    else if -7 ≤ diff ∧ diff < -1 then "a few days ago"
    else if 8 ≤ diff ∧ diff ≤ 14 then "next week"
    else if -14 ≤ diff ∧ diff ≤ -8 then "last week"
    else monthAbbrev d.month ++ " " ++ pad2 d.day

/-! ## The prepared deal record

One row of the DataFrame produced by `prepare_deals`: every `DEAL_PROPS`
column exists, the derived date/time columns are present, and
`email`/`full_name` are NaN-filled with `""`.  String-typed CRM properties are
plain `String`s (a missing value stringifies to `""` through the source's
`str(x or '')` idiom); NaN-able columns the code tests with `pd.notna` /
`dropna` are `Option`-valued.  The parsed date/time columns (`slot_date`,
`slot_time`, `slot_date_prop`, `slot_time_param`, `conducted_date_local`,
`conducted_time_local`) hold the results of the timezone-parsing helpers,
which are not themselves modelled. -/

structure Deal where
  hs_object_id : Option String := none
  full_name : String := ""
  email : String := ""
  phone_norm : String := ""
  dealstage : String := ""
  td_reminder_sms_sent : Option String := none
  vehicle_make : String := ""
  vehicle_model : String := ""
  vehicle_year : String := ""
  vehicle_colour : String := ""
  vehicle_url : String := ""
  video_url_short : String := ""
  slot_date : Option MDate := none
  slot_time : String := ""
  slot_date_prop : Option MDate := none
  slot_time_param : String := ""
  conducted_date_local : Option MDate := none
  conducted_time_local : String := ""
deriving DecidableEq, Inhabited

/-! ## Small helpers from `core/utils.py` and `app1.py` -/

/-- `first_nonempty_str`: first trimmed value that is neither empty nor a
case-insensitive `"nan"`, else `""`. -/
def first_nonempty_str (l : List String) : String :=
  ((l.map pyStrip).filter (fun x => x != "" && pyLower x != "nan")).headD ""

/-- `stage_label` (`app1.py`): `STAGE_LABELS.get(sid, sid or "")`. -/
def stage_label (stage_id : String) : String :=
  if stage_id = STAGE_ENQUIRY_ID then "Enquiry (no TD)"
  else if stage_id = STAGE_BOOKED_ID then "TD booked"
  else if stage_id = STAGE_CONDUCTED_ID then "TD conducted (no deposit)"
  else stage_id

/-- Does `color` contain any of the given words as a substring? -/
def colorHasAny (color : String) (ws : List String) : Bool :=
  ws.any (fun w => strContainsB color w)

/-- `simplify_vehicle_color`: keyword-match a manufacturer colour name down to
a basic colour word. -/
def simplify_vehicle_color (color_name : String) : String :=
  if color_name = "" then ""
  else
    let color := pyStrip (pyLower color_name)
    if colorHasAny color ["red", "crimson", "scarlet", "burgundy", "ruby", "cherry", "rose"] then "Red"
    else if colorHasAny color ["blue", "navy", "azure", "cobalt", "sapphire", "indigo", "teal"] then "Blue"
    else if colorHasAny color ["white", "pearl", "ivory", "cream", "snow", "frost"] then "White"
    else if colorHasAny color ["black", "ebony", "coal", "charcoal", "onyx", "midnight"] then "Black"
    else if colorHasAny color ["silver", "grey", "gray", "platinum", "steel", "graphite", "titanium"] then "Silver"
    else if colorHasAny color ["green", "emerald", "forest", "sage", "olive", "lime"] then "Green"
    else if colorHasAny color ["yellow", "gold", "amber", "champagne", "bronze"] then "Gold"
    else if colorHasAny color ["orange", "copper", "sunset", "rust"] then "Orange"
    else if colorHasAny color ["purple", "violet", "magenta", "plum"] then "Purple"
    else if colorHasAny color ["brown", "tan", "beige", "mocha", "coffee", "chocolate"] then "Brown"
    else
      match (pySplitWs color).find?
        (fun w => ["red", "blue", "white", "black", "silver",
                   "green", "yellow", "orange", "purple", "brown"].contains w) with
      | some w => pyCapitalize w
      | none => ""

/-! ## Identity deduplication (`dedupe_users`, `core/utils.py` lines 232-310) -/

/-- `email_l`: `email.astype(str).str.strip().str.lower()`. -/
def emailLower (r : Deal) : String := pyLower (pyStrip r.email)

/-- `user_key`: `(phone_norm.fillna('') + "|" + email_l.fillna('')).str.strip()`. -/
def userKey (r : Deal) : String := pyStrip (r.phone_norm ++ "|" ++ emailLower r)

/-- `work = work[work["user_key"].astype(bool)]`: rows that survive the
empty-key filter and take part in the grouping. -/
def dedupeWork (df : List Deal) : List Deal := df.filter (fun r => userKey r != "")

/-- The group keys in order of first appearance (`groupby(..., sort=False)`). -/
def groupKeys (df : List Deal) : List String :=
  pyDedup ((dedupeWork df).map userKey)

/-- The rows of one `groupby` group, in input order. -/
def groupRows (df : List Deal) (k : String) : List Deal :=
  (dedupeWork df).filter (fun r => userKey r == k)

/-- The per-record car description: `"make model".strip() or "car"`. -/
def carOf (r : Deal) : String :=
  let s := pyStrip (pyStrip r.vehicle_make ++ " " ++ pyStrip r.vehicle_model)
  if s = "" then "car" else s

/-- The scheduling date the dedupe loop extracts per record:
conducted date, or `slot_date_prop or slot_date`. -/
def dedupeDate (use_conducted : Bool) (r : Deal) : Option MDate :=
  if use_conducted then r.conducted_date_local
  else
    match r.slot_date_prop with
    | some d => some d
    | none => r.slot_date

/-- The scheduling time-of-day the dedupe loop extracts per record:
`conducted_time_local or ""`, or `slot_time_param or slot_time or ""`. -/
def dedupeTime (use_conducted : Bool) (r : Deal) : String :=
  if use_conducted then r.conducted_time_local
  else if r.slot_time_param ≠ "" then r.slot_time_param
  else r.slot_time

/-- One record's `when_exact` entry: `f"{format_date_au(d)} {t}".strip()`. -/
def whenExactOf (use_conducted : Bool) (r : Deal) : String :=
  pyStrip (format_date_au (dedupeDate use_conducted r) ++ " " ++ dedupeTime use_conducted r)

/-- One record's `when_rel` entry: the relative date, suffixed
`" at {t}"` when the record has a time-of-day. -/
def whenRelOf (use_conducted : Bool) (today : MDate) (r : Deal) : String :=
  let t := dedupeTime use_conducted r
  let wr := rel_date today (dedupeDate use_conducted r)
  if t = "" then wr else pyStrip (wr ++ " at " ++ t)

/-- One entry of the `VehicleDetails` list built per record. -/
structure VehicleDetail where
  make : String
  model : String
  year : String
  color : String
  url : String
  stage_id : String
deriving DecidableEq, Inhabited

/-- The `vehicle_detail` dict built for one record in the dedupe loop. -/
def vehicle_detail_of (r : Deal) : VehicleDetail :=
  { make := pyStrip r.vehicle_make
    model := pyStrip r.vehicle_model
    year := pyStrip r.vehicle_year
    color := simplify_vehicle_color (pyStrip r.vehicle_colour)
    url := pyStrip r.vehicle_url
    stage_id := pyStrip r.dealstage }

/-- One output row of `dedupe_users`. -/
structure SummaryRow where
  CustomerName : String
  Phone : String
  Email : String
  DealsCount : Nat
  Cars : String
  WhenExact : String
  WhenRel : String
  DealStages : String
  StageHint : String
  VideoURLs : String
  VehicleDetails : List VehicleDetail
deriving DecidableEq, Inhabited

/-- The Identity Summary row built from one `user_key` group. -/
def summarize_group (today : MDate) (use_conducted : Bool) (grp : List Deal) : SummaryRow :=
  let cars_list := grp.map carOf
  let when_exact_list := grp.map (whenExactOf use_conducted)
  let when_rel_list := grp.map (whenRelOf use_conducted today)
  let stages_list := grp.map (·.dealstage)
  let video_urls_list := (grp.map (fun r => pyStrip r.video_url_short)).filter (· != "")
  let stage_labels := sortStringsAsc (pyDedup ((stages_list.filter (· != "")).map stage_label))
  let hint :=
    if stages_list.contains STAGE_CONDUCTED_ID then "conducted"
    else if stages_list.contains STAGE_BOOKED_ID then "booked"
    else if stages_list.contains STAGE_ENQUIRY_ID then "enquiry"
    else "unknown"
  let uniq_videos := pyDedup (video_urls_list.filter (· != ""))
  { CustomerName := first_nonempty_str (grp.map (·.full_name))
    Phone := first_nonempty_str (grp.map (·.phone_norm))
    Email := first_nonempty_str (grp.map (·.email))
    DealsCount := (cars_list.filter (· != "")).length
    Cars := "; ".intercalate (cars_list.filter (· != ""))
    WhenExact := "; ".intercalate (when_exact_list.filter (· != ""))
    WhenRel := "; ".intercalate (when_rel_list.filter (· != ""))
    DealStages := if stage_labels.isEmpty then "" else "; ".intercalate stage_labels
    StageHint := hint
    VideoURLs := if uniq_videos.isEmpty then "" else "; ".intercalate uniq_videos
    VehicleDetails := grp.map vehicle_detail_of }

/-- `dedupe_users`: one Identity Summary row per `user_key` group, in order of
first key appearance.  `today` models the wall-clock date `rel_date` reads. -/
def dedupe_users (today : MDate) (use_conducted : Bool) (df : List Deal) : List SummaryRow :=
  (groupKeys df).map (fun k => summarize_group today use_conducted (groupRows df k))

/-- `dedupe_users_with_audit`: `dedupe_users` plus the audit list of rows
beyond the first of each group, tagged "Deduped under ⟨representative⟩". -/
def dedupe_users_with_audit (today : MDate) (use_conducted : Bool) (df : List Deal) :
    List SummaryRow × List (Deal × String) :=
  let base := dedupe_users today use_conducted df
  let dropped := (groupKeys df).map (fun k =>
    match groupRows df k with
    | [] => []
    | rep :: rest =>
      if rest.isEmpty then []
      else
        let repName := pyStrip rep.full_name
        let repPhone := pyStrip rep.phone_norm
        let repEmail := pyStrip rep.email
        let who := if repName ≠ "" then repName else if repPhone ≠ "" then repPhone else repEmail
        rest.map (fun r => (r, "Deduped under " ++ who)))
  (base, dropped.flatten)

/-! ### Source-record views of the per-group lists (for the pairing claims)

`Cars` joins `[c for c in cars_list if c]` and the when-columns join the
analogously filtered when-lists, so the item at position `i` of each joined
list originates from the `i`-th record *surviving that list's own emptiness
filter*. -/

/-- The records contributing the items of the joined `Cars` list, in order. -/
def carsItemsSrc (grp : List Deal) : List Deal :=
  grp.filter (fun r => carOf r != "")

/-- The records contributing the items of the joined `WhenExact` list. -/
def whenExactItemsSrc (use_conducted : Bool) (grp : List Deal) : List Deal :=
  grp.filter (fun r => whenExactOf use_conducted r != "")

/-- The records contributing the items of the joined `WhenRel` list. -/
def whenRelItemsSrc (use_conducted : Bool) (today : MDate) (grp : List Deal) : List Deal :=
  grp.filter (fun r => whenRelOf use_conducted today r != "")

/-! ## Filter 1: domain blacklist (`filter_internal_test_emails`) -/

/-- `email.str.strip().str.lower().split("@").str[-1]`. -/
def emailDomain (r : Deal) : String :=
  (pySplitOn '@' (pyLower (pyStrip r.email))).getLastD ""

/-- The keep-mask of the domain filter: domain not in the blacklist. -/
def internalKeepB (r : Deal) : Bool := !(internalTestDomains.contains (emailDomain r))

/-- `filter_internal_test_emails`: `(kept, removed-with-reason)`. -/
def filter_internal_test_emails (df : List Deal) : List Deal × List (Deal × String) :=
  (df.filter internalKeepB,
   (df.filter (fun r => !internalKeepB r)).map (fun r => (r, "Internal/test email domain")))

/-! ## Filter 2: already notified (`filter_sms_already_sent`) -/

/-- The `sms_sent` helper column: `str(x).lower() in ['yes', 'true']` guarded
by `pd.notna(x)`. -/
def smsSentB (r : Deal) : Bool :=
  match r.td_reminder_sms_sent with
  | none => false
  | some x => pyLower x == "yes" || pyLower x == "true"

/-- `filter_sms_already_sent`: `(kept, removed-with-reason)`. -/
def filter_sms_already_sent (df : List Deal) : List Deal × List (Deal × String) :=
  (df.filter (fun r => !smsSentB r),
   (df.filter smsSentB).map
     (fun r => (r, "SMS reminder already sent (td_reminder_sms_sent = true)")))

/-- The property value `update_deals_sms_sent` writes back to
`td_reminder_sms_sent` for each updated deal (`clients/hubspot_client.py`). -/
def updatedSmsSentValue : String := "true"

/-! ## Filter 3: active-purchase cross-reference by appointment id
(`clients/hubspot_client.py`)

The HubSpot round-trips are oracles: `apptProp d` is the `appointment_id`
property returned by `hs_batch_read_deals` for deal `d` (`none`: absent or the
batch read failed), `apptSearch a` is the outcome of the
`get_deals_by_appointment_id` search (`none`: the HTTP call failed or returned
non-200), and `stageProp d` is the `dealstage` property of deal `d`. -/

structure HsOracle where
  apptProp : String → Option String
  apptSearch : String → Option (List String)
  stageProp : String → Option String

/-- `get_deals_by_appointment_id`: the deal ids sharing an appointment id,
plus whether a non-fatal warning was shown.  An empty appointment id returns
`[]` outright; a failed HTTP call warns (`st.warning`) and returns `[]`. -/
def get_deals_by_appointment_id (o : HsOracle) (appointment_id : String) :
    List String × Bool :=
  if appointment_id = "" then ([], false)
  else
    match o.apptSearch appointment_id with
    | some l => (l, false)
    | none => ([], true)

/-- `deals_df["hs_object_id"].dropna().astype(str).tolist()`. -/
def dealIdsOf (df : List Deal) : List String := df.filterMap (·.hs_object_id)

/-- `deal_appointment_map`: deal id ↦ stripped appointment id, for deals whose
`appointment_id` property is present and truthy. -/
def dealApptMap (o : HsOracle) (deal_ids : List String) : List (String × String) :=
  deal_ids.filterMap (fun did =>
    match o.apptProp did with
    | some a => if a ≠ "" then some (did, pyStrip a) else none
    | none => none)

/-- `has_active_purchase` for one appointment id: some *other* deal (not among
the batch's own ids) sharing the appointment carries an active-purchase
stage. -/
def apptHasActiveB (o : HsOracle) (deal_ids : List String) (a : String) : Bool :=
  let all_deals := (get_deals_by_appointment_id o a).1
  !all_deals.isEmpty &&
    all_deals.any (fun cd =>
      !(deal_ids.contains cd) &&
        (match o.stageProp cd with
         | some s => s ≠ "" && ACTIVE_PURCHASE_STAGE_IDS.contains s
         | none => false))

/-- `deals_to_exclude`: every batch deal whose appointment has an
active-purchase sibling. -/
def crossExcludeList (o : HsOracle) (df : List Deal) : List String :=
  let deal_ids := dealIdsOf df
  ((dealApptMap o deal_ids).filter (fun p => apptHasActiveB o deal_ids p.2)).map (·.1)

/-- The appointment ids whose sibling lookup failed (each produced an
`st.warning` inside `get_deals_by_appointment_id`). -/
def crossWarnedAppts (o : HsOracle) (df : List Deal) : List String :=
  let deal_ids := dealIdsOf df
  (pyDedup ((dealApptMap o deal_ids).map (·.2))).filter
    (fun a => (get_deals_by_appointment_id o a).2)

/-- The keep-mask of the cross-reference filter:
`str(hs_object_id) not in deals_to_exclude` (a NaN id stringifies to
`"nan"`, which is never in the exclude set). -/
def crossKeepB (excl : List String) (r : Deal) : Bool :=
  match r.hs_object_id with
  | none => true
  | some did => !(excl.contains did)

/-- `filter_deals_by_appointment_id_car_active_purchases`:
`(kept, removed-with-reason, appointment ids that warned)`. -/
def filter_deals_by_appointment_id_car_active_purchases (o : HsOracle) (df : List Deal) :
    List Deal × List (Deal × String) × List String :=
  if (dealApptMap o (dealIdsOf df)).isEmpty then (df, [], [])
  else
    let excl := crossExcludeList o df
    (df.filter (crossKeepB excl),
     (df.filter (fun r => !crossKeepB excl r)).map
       (fun r => (r, "Car (via appointment_id) has another deal in active purchase stage")),
     crossWarnedAppts o df)

/-! ## Old-leads workflow filters (`workflows/old_leads.py: view_old`)

The contact-based active-purchase exclusion is inlined in `view_old`; its
HubSpot round-trips (`hs_deals_to_contacts_map`, `hs_contacts_to_deals_map`,
`hs_batch_read_deals`) are oracles.  A failed association read leaves the
per-id default `[]` in place, which these oracle types model directly. -/

structure OldOracle where
  d2c : String → List String
  c2d : String → List String
  stageProp : String → Option String

/-- `exclude_contacts`: contacts having another (out-of-batch) deal in an
active-purchase stage. -/
def oldExcludeContacts (o : OldOracle) (deal_ids : List String) : List String :=
  let contact_ids := sortStringsAsc (pyDedup ((deal_ids.map o.d2c).flatten))
  contact_ids.filter (fun cid =>
    (o.c2d cid).any (fun did =>
      !(deal_ids.contains did) &&
        (match o.stageProp did with
         | some s => s ≠ "" && ACTIVE_PURCHASE_STAGE_IDS.contains s
         | none => false)))

/-- `keep_row`: none of the row's contacts is excluded.  `d2c.get(d_id, [])`
defaults to `[]` for ids outside the fetched batch. -/
def oldKeepRowB (o : OldOracle) (deal_ids : List String) (excl : List String) (r : Deal) : Bool :=
  let d_id := (r.hs_object_id).getD ""
  let cids := if deal_ids.contains d_id then o.d2c d_id else []
  !(cids.any (fun c => excl.contains c))

/-- The inlined old-leads active-purchase exclusion as a
`(kept, removed-with-reason)` filter. -/
def old_leads_active_purchase_filter (o : OldOracle) (df : List Deal) :
    List Deal × List (Deal × String) :=
  let deal_ids := dealIdsOf df
  let excl := oldExcludeContacts o deal_ids
  (df.filter (oldKeepRowB o deal_ids excl),
   (df.filter (fun r => !oldKeepRowB o deal_ids excl r)).map
     (fun r => (r, "Contact has another active purchase deal")))

/-- The future-booking mask: `isinstance(d, date) and d > today_mel`. -/
def futureBookingB (today : MDate) (r : Deal) : Bool :=
  match r.slot_date_prop with
  | some d => mdateGtB d today
  | none => false

/-- The old-leads future-booking exclusion as a `(kept, removed)` filter. -/
def old_leads_future_filter (today : MDate) (df : List Deal) :
    List Deal × List (Deal × String) :=
  (df.filter (fun r => !futureBookingB today r),
   (df.filter (futureBookingB today)).map
     (fun r => (r, "Future TD booking date — likely upcoming appointment")))

/-! ## Workflow filter composition

`FilterChainOut` names one audit bucket per filter of the chain, so that two
composition orders can be compared bucket by bucket. -/

structure FilterChainOut where
  kept : List Deal
  removed_domain : List (Deal × String)
  removed_sms : List (Deal × String)
  removed_car : List (Deal × String)
deriving DecidableEq

/-- The filter composition of `view_reminders` (`workflows/reminders.py`,
steps A-C): already-notified, then appointment-id cross-reference, then
domain blacklist. -/
def reminders_chain (o : HsOracle) (df : List Deal) : FilterChainOut :=
  let a := filter_sms_already_sent df
  let b := filter_deals_by_appointment_id_car_active_purchases o a.1
  let c := filter_internal_test_emails b.1
  { kept := c.1, removed_domain := c.2, removed_sms := a.2, removed_car := b.2.1 }

/-- Modelled from the spec: the reminders chain in the order the spec lists —
domain blacklist first, then already-notified, then cross-reference. -/
def spec_listed_reminders_chain (o : HsOracle) (df : List Deal) : FilterChainOut :=
  let a := filter_internal_test_emails df
  let b := filter_sms_already_sent a.1
  let c := filter_deals_by_appointment_id_car_active_purchases o b.1
  { kept := c.1, removed_domain := a.2, removed_sms := b.2, removed_car := c.2.1 }

/-- Audit buckets of the old-leads workflow chain. -/
structure OldChainOut where
  kept : List Deal
  removed_domain : List (Deal × String)
  removed_sms : List (Deal × String)
  removed_active : List (Deal × String)
  removed_future : List (Deal × String)
deriving DecidableEq

/-- The filter composition of `view_old` (`workflows/old_leads.py`):
contact-based active-purchase exclusion, then future-booking exclusion, then
domain blacklist — and no already-notified filter (its bucket stays empty). -/
def old_leads_chain (o : OldOracle) (today : MDate) (df : List Deal) : OldChainOut :=
  let a := old_leads_active_purchase_filter o df
  let b := old_leads_future_filter today a.1
  let c := filter_internal_test_emails b.1
  { kept := c.1, removed_domain := c.2, removed_sms := [],
    removed_active := a.2, removed_future := b.2 }

/-- Modelled from the spec: the old-leads chain in the spec's listed order —
domain blacklist, already-notified, cross-reference, then the future-booking
exclusion. -/
def spec_listed_old_chain (o : OldOracle) (today : MDate) (df : List Deal) : OldChainOut :=
  let a := filter_internal_test_emails df
  let b := filter_sms_already_sent a.1
  let c := old_leads_active_purchase_filter o b.1
  let d := old_leads_future_filter today c.1
  { kept := d.1, removed_domain := a.2, removed_sms := b.2,
    removed_active := c.2, removed_future := d.2 }

/-! ## Round-robin assignment (`core/roster.py: round_robin_assign`) -/

/-- One roster entry as handed to `round_robin_assign`. -/
structure Associate where
  name : String
  email : String
deriving DecidableEq, Inhabited

/-- The sort key of `sort_values(by=["Phone", "CustomerName"])`: lexicographic
on the phone string, then the customer name. -/
def phoneNameLe (a b : SummaryRow) : Prop :=
  (strLtB a.Phone b.Phone || (a.Phone == b.Phone && strLeB a.CustomerName b.CustomerName)) = true

instance : DecidableRel phoneNameLe := fun a b => by unfold phoneNameLe; infer_instance

/-- The stable ascending sort by `(Phone, CustomerName)` (pandas
`kind="stable"`; insertion sort on a non-strict total order is stable). -/
def sortByPhoneName (l : List SummaryRow) : List SummaryRow := l.insertionSort phoneNameLe

/-- `seed = d.year * 10000 + d.month * 100 + d.day`. -/
def seedOf (d : MDate) : Nat := d.year * 10000 + d.month * 100 + d.day

/-- `rotation = associates[offset:] + associates[:offset]` with
`offset = seed % n`. -/
def rotatedAssociates (associates : List Associate) (d : MDate) : List Associate :=
  associates.drop (seedOf d % associates.length) ++
    associates.take (seedOf d % associates.length)

/-- The `(SalesAssociate, SalesEmail)` pair handed to the `i`-th sorted row:
`itertools.cycle(rotation)` yields `rotation[i mod n]`. -/
def assignedPair (associates : List Associate) (d : MDate) (i : Nat) : String × String :=
  (((rotatedAssociates associates d).getD (i % associates.length) default).name,
   ((rotatedAssociates associates d).getD (i % associates.length) default).email)

/-- `round_robin_assign`: a copy of the deduped rows with the two assignment
columns (`SalesAssociate`, `SalesEmail`) appended.  With no associates (or an
empty table) the rows pass through with empty assignment columns; otherwise
the rows are stably sorted and the date-rotated associate list is cycled over
them. -/
def round_robin_assign (dedup : List SummaryRow) (associates : List Associate) (d : MDate) :
    List (SummaryRow × String × String) :=
  if dedup.isEmpty || associates.isEmpty then dedup.map (fun r => (r, "", ""))
  else
    (sortByPhoneName dedup).enum.map (fun p => (p.2, assignedPair associates d p.1))

/-! ## General-purpose lemmas -/

theorem countP_split {α : Type} (q p : α → Bool) (l : List α) :
    l.countP (fun x => q x && p x) + l.countP (fun x => q x && !p x) = l.countP q := by
  induction l with
  | nil => rfl
  | cons a t ih =>
    by_cases hq : q a <;> by_cases hp : p a <;>
      simp [List.countP_cons, hq, hp] <;> omega

theorem length_filter_partition {α : Type} (p : α → Bool) (l : List α) :
    (l.filter p).length + (l.filter (fun a => !p a)).length = l.length := by
  induction l with
  | nil => rfl
  | cons a t ih => by_cases h : p a <;> simp [List.filter_cons, h] <;> omega

theorem count_filter_partition {α : Type} [DecidableEq α] (p : α → Bool) (l : List α) (a : α) :
    (l.filter p).count a + (l.filter (fun x => !p x)).count a = l.count a := by
  rw [List.count_eq_countP, List.count_eq_countP, List.count_eq_countP,
    List.countP_filter, List.countP_filter]
  exact countP_split (fun x => x == a) p l

theorem countP_map_pair_fst {α : Type} [DecidableEq α] (l : List α) (reason : String) (a : α) :
    (l.map (fun x => (x, reason))).countP (fun p => p.1 == a) = l.count a := by
  rw [List.countP_map, List.count_eq_countP]; rfl

theorem mem_pyDedupAux {α : Type} [BEq α] [LawfulBEq α] {a : α} :
    ∀ (l seen : List α), a ∈ pyDedupAux seen l ↔ a ∈ l ∧ a ∉ seen := by
  intro l
  induction l with
  | nil => intro seen; simp [pyDedupAux]
  | cons b t ih =>
    intro seen
    simp only [pyDedupAux]
    by_cases hb : seen.contains b
    · rw [if_pos hb, ih]
      have hbseen : b ∈ seen := by
        simpa using hb
      constructor
      · rintro ⟨h1, h2⟩; exact ⟨List.mem_cons_of_mem _ h1, h2⟩
      · rintro ⟨h1, h2⟩
        rcases List.mem_cons.mp h1 with h | h
        · exact absurd (h ▸ hbseen) h2
        · exact ⟨h, h2⟩
    · rw [if_neg hb]
      have hbseen : b ∉ seen := by
        simpa using hb
      by_cases hab : a = b
      · subst hab
        simp [ih, hbseen]
      · simp only [List.mem_cons, hab, false_or]
        rw [ih]
        simp [hab, List.mem_cons]

theorem mem_pyDedup {α : Type} [BEq α] [LawfulBEq α] {a : α} (l : List α) :
    a ∈ pyDedup l ↔ a ∈ l := by
  unfold pyDedup
  rw [mem_pyDedupAux]
  simp

/-! ## C4: totality and output shape of `normalize_phone` -/

theorem filter_isDigit_all (s : List Char) : (s.filter Char.isDigit).all Char.isDigit = true := by
  rw [List.all_eq_true]
  intro x hx
  exact (List.mem_filter.mp hx).2

theorem all_drop_of_all {p : Char → Bool} {l : List Char} (h : l.all p = true) (n : Nat) :
    (l.drop n).all p = true := by
  rw [List.all_eq_true] at h ⊢
  intro x hx
  exact h x (List.mem_of_mem_drop hx)

theorem phoneDigits_cases (s : List Char) :
    phoneDigits s = '+' :: s.filter Char.isDigit ∨ phoneDigits s = s.filter Char.isDigit := by
  unfold phoneDigits
  split
  · exact Or.inl rfl
  · exact Or.inr rfl

theorem phoneRules_shape (digits f : List Char) (hfall : f.all Char.isDigit = true)
    (hd : digits = '+' :: f ∨ digits = f) :
    phoneRules digits = [] ∨
      ((phoneRules digits).length = 12 ∧ (phoneRules digits).take 3 = ['+', '6', '1'] ∧
        ((phoneRules digits).drop 3).all Char.isDigit = true) := by
  have hfmem : ∀ c ∈ f, c.isDigit = true := List.all_eq_true.mp hfall
  unfold phoneRules
  split
  case isTrue h1 =>
    rcases hd with hd | hd
    · subst hd
      refine Or.inr ⟨h1.2, h1.1, ?_⟩
      show (f.drop 2).all Char.isDigit = true
      exact all_drop_of_all hfall 2
    · exfalso
      have hplus : '+' ∈ digits.take 3 := by rw [h1.1]; simp
      have hmem : '+' ∈ f := by rw [← hd]; exact List.take_subset _ _ hplus
      have := hfmem _ hmem
      simp at this
  case isFalse =>
    split
    case isTrue h2 =>
      have hdf : digits = f := by
        rcases hd with hd | hd
        · exfalso
          rw [hd] at h2
          rcases f with _ | ⟨c, cs⟩ <;> simp_all
        · exact hd
      refine Or.inr ⟨by simp [h2.2], ?_, ?_⟩
      · show ('+' :: digits).take 3 = ['+', '6', '1']
        rw [List.take_succ_cons, h2.1]
      · show (('+' :: digits).drop 3).all Char.isDigit = true
        rw [List.drop_succ_cons, hdf]
        exact all_drop_of_all hfall 2
    case isFalse =>
      split
      case isTrue h3 =>
        have hdf : digits = f := by
          rcases hd with hd | hd
          · exfalso; rw [hd] at h3; simp at h3
          · exact hd
        refine Or.inr ⟨?_, rfl, ?_⟩
        · show (['+', '6', '1'] ++ digits.drop 1).length = 12
          rw [List.length_append, List.length_drop, h3.2.1]
          decide
        · show ((['+', '6', '1'] ++ digits.drop 1).drop 3).all Char.isDigit = true
          show (digits.drop 1).all Char.isDigit = true
          rw [hdf]
          exact all_drop_of_all hfall 1
      case isFalse =>
        split
        case isTrue h4 =>
          have hdf : digits = f := by
            rcases hd with hd | hd
            · exfalso; rw [hd] at h4; simp at h4
            · exact hd
          refine Or.inr ⟨?_, rfl, ?_⟩
          · show (['+', '6', '1'] ++ digits).length = 12
            rw [List.length_append, h4.2]
            decide
          · show ((['+', '6', '1'] ++ digits).drop 3).all Char.isDigit = true
            show digits.all Char.isDigit = true
            rw [hdf]; exact hfall
        case isFalse => exact Or.inl rfl

/-- C4: for every input (`None`/NaN modelled as `none`, any string
otherwise), `normalize_phone` returns either `""` or a string matching
`^\+61\d{9}$`, and the four Australian rewriting rules produce the expected
canonical forms — in particular `"0412345678"` normalizes to
`"+61412345678"`, while a non-matching input such as `"0512345678"` yields
`""`.  Totality (no exceptions) is inherent: the function is defined on every
input. -/
theorem normalize_phone_total_and_shaped :
    normalize_phone (some "0412345678") = "+61412345678" ∧
    normalize_phone (some "+61 412 345 678") = "+61412345678" ∧
    normalize_phone (some "61412345678") = "+61412345678" ∧
    normalize_phone (some "412345678") = "+61412345678" ∧
    normalize_phone (some "0512345678") = "" ∧
    normalize_phone none = "" ∧
    ∀ raw : Option String,
      normalize_phone raw = "" ∨ phoneShapeB (normalize_phone raw) = true := by
  refine ⟨rfl, rfl, rfl, rfl, rfl, rfl, ?_⟩
  intro raw
  match raw with
  | none => exact Or.inl rfl
  | some r =>
    have h := phoneRules_shape (phoneDigits (pyStrip r).data)
      ((pyStrip r).data.filter Char.isDigit)
      (filter_isDigit_all _) (phoneDigits_cases _)
    rcases h with h | ⟨h1, h2, h3⟩
    · left
      show (⟨phoneRules (phoneDigits (pyStrip r).data)⟩ : String) = ""
      rw [h]
    · right
      show phoneShapeB ⟨phoneRules (phoneDigits (pyStrip r).data)⟩ = true
      unfold phoneShapeB
      simp only [Bool.and_eq_true, decide_eq_true_eq]
      exact ⟨⟨h1, h2⟩, h3⟩

/-! ## C1: what happens to records with an empty contact key -/

theorem mem_dropWhile_of_neg {α : Type} {p : α → Bool} {c : α} (hc : p c = false) :
    ∀ {l : List α}, c ∈ l → c ∈ l.dropWhile p := by
  intro l
  induction l with
  | nil => intro h; simp at h
  | cons a t ih =>
    intro hmem
    by_cases ha : p a = true
    · rw [List.dropWhile_cons_of_pos ha]
      rcases List.mem_cons.mp hmem with h | h
      · rw [h] at hc; rw [hc] at ha; cases ha
      · exact ih h
    · rw [List.dropWhile_cons_of_neg ha]
      exact hmem

theorem stripChars_ne_nil {l : List Char} {c : Char} (hc : c ∈ l)
    (hw : c.isWhitespace = false) : stripChars l ≠ [] := by
  unfold stripChars
  intro h
  have h1 := List.reverse_eq_nil_iff.mp h
  have h2 := List.dropWhile_eq_nil_iff.mp h1
  have hc1 : c ∈ l.dropWhile Char.isWhitespace := mem_dropWhile_of_neg hw hc
  have hc2 : c ∈ (l.dropWhile Char.isWhitespace).reverse := List.mem_reverse.mpr hc1
  have := h2 c hc2
  rw [hw] at this
  cases this

theorem userKey_ne_empty (r : Deal) : userKey r ≠ "" := by
  unfold userKey pyStrip
  intro h
  have hdata : stripChars (r.phone_norm ++ "|" ++ emailLower r).data = [] := by
    have := congrArg String.data h
    simpa using this
  have hmem : '|' ∈ (r.phone_norm ++ "|" ++ emailLower r).data := by
    rw [String.data_append, String.data_append]
    simp [String.data]
  exact stripChars_ne_nil hmem (by decide) hdata

/-- C1 counterexample: a record whose normalized phone and lowercased email
are both empty is *not* dropped by the dedupe key filter — its `user_key` is
the bare separator `"|"` (stripping removes only whitespace), so the record
survives `work[work["user_key"].astype(bool)]`, forms a group, and produces an
Identity Summary row with empty `Phone` and `Email`. -/
theorem dedupe_empty_key_counterexample :
    ({} : Deal).phone_norm = "" ∧ emailLower ({} : Deal) = "" ∧
    userKey ({} : Deal) = "|" ∧
    dedupeWork [({} : Deal)] = [({} : Deal)] ∧
    (dedupe_users ⟨2025, 10, 12⟩ false [({} : Deal)]).length = 1 ∧
    (dedupe_users ⟨2025, 10, 12⟩ false [({} : Deal)]).map
      (fun row => (row.Phone, row.Email)) = [("", "")] := by
  exact ⟨rfl, rfl, by decide, by decide, rfl, by decide⟩

/-- C1 (amended): the Normalized Contact Key built by `dedupe_users` always
contains the literal separator `"|"`, hence is never empty; no record is
excluded from grouping, and a record with empty phone and email is retained
under the synthetic key `"|"`.  Consequently the grouping uses *all* rows,
the deduped output has one row per distinct `user_key` of the input, and
`dedupe_users_with_audit` returns the same base table. -/
theorem dedupe_users_retains_empty_key_rows :
    (∀ r : Deal, userKey r ≠ "") ∧
    (∀ r : Deal, r.phone_norm = "" → emailLower r = "" → userKey r = "|") ∧
    (∀ df : List Deal, dedupeWork df = df) ∧
    (∀ (today : MDate) (uc : Bool) (df : List Deal),
       (dedupe_users today uc df).length = (pyDedup (df.map userKey)).length) ∧
    (∀ (today : MDate) (uc : Bool) (df : List Deal),
       (dedupe_users_with_audit today uc df).1 = dedupe_users today uc df) := by
  have hwork : ∀ df : List Deal, dedupeWork df = df := by
    intro df
    apply List.filter_eq_self.mpr
    intro a _
    simpa using userKey_ne_empty a
  refine ⟨userKey_ne_empty, ?_, hwork, ?_, fun _ _ _ => rfl⟩
  · intro r h1 h2
    unfold userKey
    rw [h1, h2]
    decide
  · intro today uc df
    unfold dedupe_users groupKeys
    rw [hwork df, List.length_map]

/-- Witness for the amended C1 theorem at a concrete record. -/
theorem dedupe_users_retains_empty_key_rows_witness :
    userKey ({} : Deal) = "|" :=
  dedupe_users_retains_empty_key_rows.2.1 {} rfl rfl

/-! ## C3: positional pairing of `Cars` with the when-lists -/

theorem carOf_ne_empty (r : Deal) : carOf r ≠ "" := by
  unfold carOf
  dsimp only
  split
  · decide
  · next h => exact h

/-- A group member with no parseable scheduling info but a non-empty car
description. -/
def dealNoWhen : Deal :=
  { vehicle_make := "Mazda", vehicle_model := "CX-5", email := "a@b.com" }

/-- A group member with a booking date (13 Oct 2025). -/
def dealWithWhen : Deal :=
  { vehicle_make := "Kia", email := "a@b.com", slot_date_prop := some ⟨2025, 10, 13⟩ }

/-- C3 counterexample: in a group whose first record has no scheduling info,
the `Cars` join keeps one item per record (the car description falls back to
`"car"` and is never empty) while the `WhenExact`/`WhenRel` joins drop the
empty entry, so position 0 of `Cars` comes from the first record but position
0 of the when-lists comes from the *second* record: the positions do not
correspond. -/
theorem cars_when_alignment_counterexample :
    whenExactOf false dealNoWhen = "" ∧
    whenRelOf false ⟨2025, 10, 12⟩ dealNoWhen = "" ∧
    carsItemsSrc [dealNoWhen, dealWithWhen] = [dealNoWhen, dealWithWhen] ∧
    whenExactItemsSrc false [dealNoWhen, dealWithWhen] = [dealWithWhen] ∧
    whenRelItemsSrc false ⟨2025, 10, 12⟩ [dealNoWhen, dealWithWhen] = [dealWithWhen] ∧
    (carsItemsSrc [dealNoWhen, dealWithWhen]).getD 0 default ≠
      (whenExactItemsSrc false [dealNoWhen, dealWithWhen]).getD 0 default ∧
    (summarize_group ⟨2025, 10, 12⟩ false [dealNoWhen, dealWithWhen]).Cars =
      "Mazda CX-5; Kia" ∧
    (summarize_group ⟨2025, 10, 12⟩ false [dealNoWhen, dealWithWhen]).WhenExact =
      "13 Oct 2025" := by
  refine ⟨by decide, by decide, by decide, by decide, by decide, by decide, by decide, by decide⟩

/-- C3 (amended): the joined `Cars`, `WhenExact` and `WhenRel` strings each
concatenate per-record values in record order, after dropping that list's own
empty entries; `Cars` drops nothing (a car description is never empty), so
list positions of `Cars` and the when-lists correspond record-for-record
exactly when every record of the group has a non-empty when-entry, in which
case position `i` of either list originates from record `i` of the group. -/
theorem cars_when_alignment :
    (∀ (grp : List Deal) (today : MDate) (uc : Bool),
       (summarize_group today uc grp).Cars =
         "; ".intercalate ((carsItemsSrc grp).map carOf) ∧
       (summarize_group today uc grp).WhenExact =
         "; ".intercalate ((whenExactItemsSrc uc grp).map (whenExactOf uc)) ∧
       (summarize_group today uc grp).WhenRel =
         "; ".intercalate ((whenRelItemsSrc uc today grp).map (whenRelOf uc today))) ∧
    (∀ grp : List Deal, carsItemsSrc grp = grp) ∧
    (∀ (uc : Bool) (grp : List Deal),
       (∀ r ∈ grp, whenExactOf uc r ≠ "") → whenExactItemsSrc uc grp = grp) ∧
    (∀ (uc : Bool) (today : MDate) (grp : List Deal),
       (∀ r ∈ grp, whenRelOf uc today r ≠ "") → whenRelItemsSrc uc today grp = grp) ∧
    (∀ (uc : Bool) (grp : List Deal),
       (∀ r ∈ grp, whenExactOf uc r ≠ "") →
       ∀ i : Nat, (carsItemsSrc grp).getD i default =
         (whenExactItemsSrc uc grp).getD i default) := by
  have hcars : ∀ grp : List Deal, carsItemsSrc grp = grp := by
    intro grp
    apply List.filter_eq_self.mpr
    intro a _
    simpa using carOf_ne_empty a
  have hwhen : ∀ (uc : Bool) (grp : List Deal),
      (∀ r ∈ grp, whenExactOf uc r ≠ "") → whenExactItemsSrc uc grp = grp := by
    intro uc grp h
    apply List.filter_eq_self.mpr
    intro a ha
    simpa using h a ha
  refine ⟨?_, hcars, hwhen, ?_, ?_⟩
  · intro grp today uc
    refine ⟨?_, ?_, ?_⟩
    · show "; ".intercalate ((grp.map carOf).filter (· != "")) = _
      rw [List.filter_map]
      rfl
    · show "; ".intercalate ((grp.map (whenExactOf uc)).filter (· != "")) = _
      rw [List.filter_map]
      rfl
    · show "; ".intercalate ((grp.map (whenRelOf uc today)).filter (· != "")) = _
      rw [List.filter_map]
      rfl
  · intro uc today grp h
    apply List.filter_eq_self.mpr
    intro a ha
    simpa using h a ha
  · intro uc grp h i
    rw [hcars grp, hwhen uc grp h]

/-- Witness for the amended C3 theorem: a one-record group with a booking
date has aligned positions. -/
theorem cars_when_alignment_witness :
    (carsItemsSrc [dealWithWhen]).getD 0 default =
      (whenExactItemsSrc false [dealWithWhen]).getD 0 default :=
  cars_when_alignment.2.2.2.2 false [dealWithWhen] (by decide) 0

/-! ## Per-filter partition lemmas (shared by C2 and C5) -/

theorem length_filter_partition' {α : Type} (p : α → Bool) (l : List α) :
    (l.filter (fun x => !p x)).length + (l.filter p).length = l.length := by
  have h := length_filter_partition (fun x => !p x) l
  have h2 : l.filter (fun x => !(!p x)) = l.filter p :=
    List.filter_congr (fun x _ => by simp)
  rw [h2] at h
  exact h

theorem count_filter_partition' {α : Type} [DecidableEq α] (p : α → Bool) (l : List α) (a : α) :
    (l.filter (fun x => !p x)).count a + (l.filter p).count a = l.count a := by
  have h := count_filter_partition (fun x => !p x) l a
  have h2 : l.filter (fun x => !(!p x)) = l.filter p :=
    List.filter_congr (fun x _ => by simp)
  rw [h2] at h
  exact h

theorem internal_filter_length (df : List Deal) :
    (filter_internal_test_emails df).1.length + (filter_internal_test_emails df).2.length =
      df.length := by
  unfold filter_internal_test_emails
  rw [List.length_map]
  exact length_filter_partition internalKeepB df

theorem internal_filter_count (df : List Deal) (r : Deal) :
    df.count r = (filter_internal_test_emails df).1.count r +
      (filter_internal_test_emails df).2.countP (fun x => x.1 == r) := by
  unfold filter_internal_test_emails
  rw [countP_map_pair_fst]
  exact (count_filter_partition internalKeepB df r).symm

theorem sms_filter_length (df : List Deal) :
    (filter_sms_already_sent df).1.length + (filter_sms_already_sent df).2.length =
      df.length := by
  unfold filter_sms_already_sent
  rw [List.length_map]
  exact length_filter_partition' smsSentB df

theorem sms_filter_count (df : List Deal) (r : Deal) :
    df.count r = (filter_sms_already_sent df).1.count r +
      (filter_sms_already_sent df).2.countP (fun x => x.1 == r) := by
  unfold filter_sms_already_sent
  rw [countP_map_pair_fst]
  exact (count_filter_partition' smsSentB df r).symm

theorem cross_filter_length (o : HsOracle) (df : List Deal) :
    (filter_deals_by_appointment_id_car_active_purchases o df).1.length +
      (filter_deals_by_appointment_id_car_active_purchases o df).2.1.length = df.length := by
  unfold filter_deals_by_appointment_id_car_active_purchases
  split
  · simp
  · dsimp only
    rw [List.length_map]
    exact length_filter_partition (crossKeepB _) df

theorem cross_filter_count (o : HsOracle) (df : List Deal) (r : Deal) :
    df.count r = (filter_deals_by_appointment_id_car_active_purchases o df).1.count r +
      (filter_deals_by_appointment_id_car_active_purchases o df).2.1.countP
        (fun x => x.1 == r) := by
  unfold filter_deals_by_appointment_id_car_active_purchases
  split
  · simp
  · dsimp only
    rw [countP_map_pair_fst]
    exact (count_filter_partition (crossKeepB _) df r).symm

theorem old_active_filter_count (o : OldOracle) (df : List Deal) (r : Deal) :
    df.count r = (old_leads_active_purchase_filter o df).1.count r +
      (old_leads_active_purchase_filter o df).2.countP (fun x => x.1 == r) := by
  unfold old_leads_active_purchase_filter
  rw [countP_map_pair_fst]
  exact (count_filter_partition (oldKeepRowB o _ _) df r).symm

theorem future_filter_count (today : MDate) (df : List Deal) (r : Deal) :
    df.count r = (old_leads_future_filter today df).1.count r +
      (old_leads_future_filter today df).2.countP (fun x => x.1 == r) := by
  unfold old_leads_future_filter
  rw [countP_map_pair_fst]
  exact (count_filter_partition' (futureBookingB today) df r).symm

/-! ## C5: every filter stage partitions its input -/

/-- C5: each of the three filter stages — domain blacklist, already-notified,
and active-purchase cross-reference — splits its input exactly: the kept and
removed row counts sum to the input length, and every input row lands (with
its multiplicity) in exactly one of the two output tables. -/
theorem filter_stages_partition :
    (∀ df : List Deal,
       (filter_internal_test_emails df).1.length +
         (filter_internal_test_emails df).2.length = df.length) ∧
    (∀ (df : List Deal) (r : Deal),
       df.count r = (filter_internal_test_emails df).1.count r +
         (filter_internal_test_emails df).2.countP (fun x => x.1 == r)) ∧
    (∀ df : List Deal,
       (filter_sms_already_sent df).1.length +
         (filter_sms_already_sent df).2.length = df.length) ∧
    (∀ (df : List Deal) (r : Deal),
       df.count r = (filter_sms_already_sent df).1.count r +
         (filter_sms_already_sent df).2.countP (fun x => x.1 == r)) ∧
    (∀ (o : HsOracle) (df : List Deal),
       (filter_deals_by_appointment_id_car_active_purchases o df).1.length +
         (filter_deals_by_appointment_id_car_active_purchases o df).2.1.length = df.length) ∧
    (∀ (o : HsOracle) (df : List Deal) (r : Deal),
       df.count r = (filter_deals_by_appointment_id_car_active_purchases o df).1.count r +
         (filter_deals_by_appointment_id_car_active_purchases o df).2.1.countP
           (fun x => x.1 == r)) :=
  ⟨internal_filter_length, internal_filter_count, sms_filter_length, sms_filter_count,
   cross_filter_length, cross_filter_count⟩

/-! ## C2: the order in which the workflows compose the filters -/

/-- An oracle for which every external lookup comes back empty/failed. -/
def trivialHsOracle : HsOracle := ⟨fun _ => none, fun _ => none, fun _ => none⟩

/-- A deal that both the domain filter and the already-notified filter would
remove. -/
def dealSmsAndInternal : Deal :=
  { email := "x@cars24.com", td_reminder_sms_sent := some "true" }

/-- C2 counterexample: on a record with an internal domain *and* the SMS flag
set, the reminders workflow removes it in the already-notified bucket (its
first filter), whereas the spec's listed order would remove it in the
domain-blacklist bucket: the two compositions differ, so the reminders
workflow does not compose the filters in the spec's listed order. -/
theorem workflow_filter_order_counterexample :
    reminders_chain trivialHsOracle [dealSmsAndInternal] ≠
      spec_listed_reminders_chain trivialHsOracle [dealSmsAndInternal] ∧
    (reminders_chain trivialHsOracle [dealSmsAndInternal]).removed_sms =
      [(dealSmsAndInternal, "SMS reminder already sent (td_reminder_sms_sent = true)")] ∧
    (spec_listed_reminders_chain trivialHsOracle [dealSmsAndInternal]).removed_sms = [] ∧
    (spec_listed_reminders_chain trivialHsOracle [dealSmsAndInternal]).removed_domain =
      [(dealSmsAndInternal, "Internal/test email domain")] := by
  refine ⟨by decide, by decide, by decide, by decide⟩

/-- C2 (amended): the reminders workflow composes the filters in the order
already-notified → active-purchase cross-reference → domain blacklist, and
the old-leads workflow in the order contact-based active-purchase
cross-reference → future-booking exclusion → domain blacklist with *no*
already-notified stage — each stage feeding the previous stage's kept rows —
before dedupe and assignment; moreover each chain partitions its input: every
input row lands in exactly one of the kept table and the removal buckets. -/
theorem workflow_filter_order :
    (∀ (o : HsOracle) (df : List Deal),
       (reminders_chain o df).removed_sms = (filter_sms_already_sent df).2 ∧
       (reminders_chain o df).removed_car =
         (filter_deals_by_appointment_id_car_active_purchases o
           (filter_sms_already_sent df).1).2.1 ∧
       (reminders_chain o df).removed_domain =
         (filter_internal_test_emails
           (filter_deals_by_appointment_id_car_active_purchases o
             (filter_sms_already_sent df).1).1).2 ∧
       (reminders_chain o df).kept =
         (filter_internal_test_emails
           (filter_deals_by_appointment_id_car_active_purchases o
             (filter_sms_already_sent df).1).1).1) ∧
    (∀ (o : OldOracle) (today : MDate) (df : List Deal),
       (old_leads_chain o today df).removed_active =
         (old_leads_active_purchase_filter o df).2 ∧
       (old_leads_chain o today df).removed_future =
         (old_leads_future_filter today (old_leads_active_purchase_filter o df).1).2 ∧
       (old_leads_chain o today df).removed_domain =
         (filter_internal_test_emails
           (old_leads_future_filter today (old_leads_active_purchase_filter o df).1).1).2 ∧
       (old_leads_chain o today df).removed_sms = [] ∧
       (old_leads_chain o today df).kept =
         (filter_internal_test_emails
           (old_leads_future_filter today (old_leads_active_purchase_filter o df).1).1).1) ∧
    (∀ (o : HsOracle) (df : List Deal) (r : Deal),
       df.count r = (reminders_chain o df).kept.count r
         + (reminders_chain o df).removed_sms.countP (fun x => x.1 == r)
         + (reminders_chain o df).removed_car.countP (fun x => x.1 == r)
         + (reminders_chain o df).removed_domain.countP (fun x => x.1 == r)) ∧
    (∀ (o : OldOracle) (today : MDate) (df : List Deal) (r : Deal),
       df.count r = (old_leads_chain o today df).kept.count r
         + (old_leads_chain o today df).removed_active.countP (fun x => x.1 == r)
         + (old_leads_chain o today df).removed_future.countP (fun x => x.1 == r)
         + (old_leads_chain o today df).removed_domain.countP (fun x => x.1 == r)) := by
  refine ⟨fun o df => ⟨rfl, rfl, rfl, rfl⟩, fun o today df => ⟨rfl, rfl, rfl, rfl, rfl⟩, ?_, ?_⟩
  · intro o df r
    have h1 := sms_filter_count df r
    have h2 := cross_filter_count o (filter_sms_already_sent df).1 r
    have h3 := internal_filter_count
      (filter_deals_by_appointment_id_car_active_purchases o
        (filter_sms_already_sent df).1).1 r
    have e1 : (reminders_chain o df).removed_sms = (filter_sms_already_sent df).2 := rfl
    have e2 : (reminders_chain o df).removed_car =
        (filter_deals_by_appointment_id_car_active_purchases o
          (filter_sms_already_sent df).1).2.1 := rfl
    have e3 : (reminders_chain o df).removed_domain =
        (filter_internal_test_emails
          (filter_deals_by_appointment_id_car_active_purchases o
            (filter_sms_already_sent df).1).1).2 := rfl
    have e4 : (reminders_chain o df).kept =
        (filter_internal_test_emails
          (filter_deals_by_appointment_id_car_active_purchases o
            (filter_sms_already_sent df).1).1).1 := rfl
    rw [e1, e2, e3, e4]
    omega
  · intro o today df r
    have h1 := old_active_filter_count o df r
    have h2 := future_filter_count today (old_leads_active_purchase_filter o df).1 r
    have h3 := internal_filter_count
      (old_leads_future_filter today (old_leads_active_purchase_filter o df).1).1 r
    have e1 : (old_leads_chain o today df).removed_active =
        (old_leads_active_purchase_filter o df).2 := rfl
    have e2 : (old_leads_chain o today df).removed_future =
        (old_leads_future_filter today (old_leads_active_purchase_filter o df).1).2 := rfl
    have e3 : (old_leads_chain o today df).removed_domain =
        (filter_internal_test_emails
          (old_leads_future_filter today (old_leads_active_purchase_filter o df).1).1).2 := rfl
    have e4 : (old_leads_chain o today df).kept =
        (filter_internal_test_emails
          (old_leads_future_filter today (old_leads_active_purchase_filter o df).1).1).1 := rfl
    rw [e1, e2, e3, e4]
    omega

/-! ## C7: the cross-reference filter fails open on lookup failure -/

/-- C7: if the sibling lookup for an appointment id fails (HTTP/network
error, modelled by `apptSearch` returning `none`), `get_deals_by_appointment_id`
degrades to the empty list, so the appointment is treated as having no
active-purchase conflict: every batch record carrying that appointment id is
kept, and the appointment id appears in the list of warned lookups (each
produced a non-fatal `st.warning`). -/
theorem crossref_fails_open (o : HsOracle) (df : List Deal) (r : Deal) (did a : String)
    (hr : r ∈ df) (hid : r.hs_object_id = some did)
    (hprop : o.apptProp did = some a) (ha : a ≠ "")
    (hne : pyStrip a ≠ "") (hfail : o.apptSearch (pyStrip a) = none) :
    r ∈ (filter_deals_by_appointment_id_car_active_purchases o df).1 ∧
    pyStrip a ∈ (filter_deals_by_appointment_id_car_active_purchases o df).2.2 := by
  have hdid : did ∈ dealIdsOf df := List.mem_filterMap.mpr ⟨r, hr, hid⟩
  have hpair : (did, pyStrip a) ∈ dealApptMap o (dealIdsOf df) := by
    apply List.mem_filterMap.mpr
    refine ⟨did, hdid, ?_⟩
    rw [hprop]
    simp [ha]
  have hnonempty : (dealApptMap o (dealIdsOf df)).isEmpty = false := by
    rcases hlist : dealApptMap o (dealIdsOf df) with _ | ⟨x, xs⟩
    · rw [hlist] at hpair; simp at hpair
    · rfl
  have hact : apptHasActiveB o (dealIdsOf df) (pyStrip a) = false := by
    unfold apptHasActiveB get_deals_by_appointment_id
    rw [if_neg hne, hfail]
    rfl
  have hexcl : did ∉ crossExcludeList o df := by
    intro hmem
    unfold crossExcludeList at hmem
    rcases List.mem_map.mp hmem with ⟨p, hp, hp1⟩
    have hpmem := List.mem_filter.mp hp
    rcases List.mem_filterMap.mp hpmem.1 with ⟨did', _, heq⟩
    rcases hcase : o.apptProp did' with _ | a'
    · rw [hcase] at heq; cases heq
    · rw [hcase] at heq
      dsimp only at heq
      by_cases ha' : a' = ""
      · rw [if_neg (by simp [ha'])] at heq; cases heq
      · rw [if_pos ha'] at heq
        have hp2 : p = (did', pyStrip a') := (Option.some_injective _ heq).symm
        have hdid' : did' = did := by rw [hp2] at hp1; exact hp1
        rw [hdid'] at hp2 hcase
        rw [hprop] at hcase
        have haa : a' = a := (Option.some_injective _ hcase).symm
        have : apptHasActiveB o (dealIdsOf df) p.2 = true := hpmem.2
        rw [hp2, haa] at this
        rw [hact] at this
        cases this
  have hkeep : crossKeepB (crossExcludeList o df) r = true := by
    unfold crossKeepB
    rw [hid]
    simpa using hexcl
  constructor
  · unfold filter_deals_by_appointment_id_car_active_purchases
    split
    · next hguard => rw [hguard] at hnonempty; cases hnonempty
    · exact List.mem_filter.mpr ⟨hr, hkeep⟩
  · unfold filter_deals_by_appointment_id_car_active_purchases
    split
    · next hguard => rw [hguard] at hnonempty; cases hnonempty
    · show pyStrip a ∈ crossWarnedAppts o df
      unfold crossWarnedAppts
      apply List.mem_filter.mpr
      constructor
      · exact (mem_pyDedup _).mpr (List.mem_map.mpr ⟨(did, pyStrip a), hpair, rfl⟩)
      · unfold get_deals_by_appointment_id
        rw [if_neg hne, hfail]

/-- An oracle whose appointment-sibling search always fails. -/
def failingHsOracle : HsOracle := ⟨fun _ => some "A1", fun _ => none, fun _ => none⟩

/-- A deal with an id and a clean email, mapped to appointment `"A1"`. -/
def dealWithApptId : Deal := { hs_object_id := some "d1", email := "y@ok.com" }

/-- Witness for C7 at a concrete failing oracle. -/
theorem crossref_fails_open_witness :
    dealWithApptId ∈
      (filter_deals_by_appointment_id_car_active_purchases failingHsOracle [dealWithApptId]).1 ∧
    pyStrip "A1" ∈
      (filter_deals_by_appointment_id_car_active_purchases failingHsOracle [dealWithApptId]).2.2 :=
  crossref_fails_open failingHsOracle [dealWithApptId] dealWithApptId "d1" "A1"
    (by simp) rfl rfl (by decide) (by decide) rfl

/-! ## C9: marking a deal sent composes with the already-notified filter -/

/-- C9: `update_deals_sms_sent` writes exactly the string `"true"` to
`td_reminder_sms_sent`; `filter_sms_already_sent` removes every record whose
value lowercases to `"true"` or `"yes"`; hence a record carrying the written
value is removed (and not kept) by a subsequent filter run. -/
theorem sms_update_then_filter :
    updatedSmsSentValue = "true" ∧
    (∀ x : String, (pyLower x = "true" ∨ pyLower x = "yes") →
       ∀ r : Deal, r.td_reminder_sms_sent = some x → smsSentB r = true) ∧
    (∀ (df : List Deal) (r : Deal), r ∈ df →
       r.td_reminder_sms_sent = some updatedSmsSentValue →
       r ∈ (filter_sms_already_sent df).2.map Prod.fst ∧
         r ∉ (filter_sms_already_sent df).1) := by
  refine ⟨rfl, ?_, ?_⟩
  · intro x hx r hr
    unfold smsSentB
    rw [hr]
    rcases hx with h | h <;> simp [h]
  · intro df r hr hv
    have hs : smsSentB r = true := by
      unfold smsSentB
      rw [hv]
      rfl
    constructor
    · have hmapfst : (filter_sms_already_sent df).2.map Prod.fst = df.filter smsSentB := by
        unfold filter_sms_already_sent
        rw [List.map_map]
        show List.map id (df.filter smsSentB) = df.filter smsSentB
        rw [List.map_id]
      rw [hmapfst]
      exact List.mem_filter.mpr ⟨hr, hs⟩
    · intro hmem
      have h2 := (List.mem_filter.mp hmem).2
      rw [hs] at h2
      cases h2

/-- Witness for C9 at a concrete record carrying the written value. -/
theorem sms_update_then_filter_witness :
    dealSmsAndInternal ∈ (filter_sms_already_sent [dealSmsAndInternal]).2.map Prod.fst ∧
      dealSmsAndInternal ∉ (filter_sms_already_sent [dealSmsAndInternal]).1 :=
  sms_update_then_filter.2.2 [dealSmsAndInternal] dealSmsAndInternal (by simp) rfl

/-! ## Shared lemmas on `round_robin_assign` -/

theorem round_robin_empty_assoc (dedup : List SummaryRow) (d : MDate) :
    round_robin_assign dedup [] d = dedup.map (fun r => (r, "", "")) := by
  unfold round_robin_assign
  rw [if_pos]
  show (dedup.isEmpty || true) = true
  simp

theorem isEmpty_false_of_ne_nil {α : Type} {l : List α} (h : l ≠ []) : l.isEmpty = false := by
  cases l with
  | nil => exact absurd rfl h
  | cons a t => rfl

theorem round_robin_eq_enum_map (dedup : List SummaryRow) (associates : List Associate)
    (d : MDate) (ha : associates ≠ []) (hd : dedup.isEmpty = false) :
    round_robin_assign dedup associates d =
      (sortByPhoneName dedup).enum.map (fun p => (p.2, assignedPair associates d p.1)) := by
  unfold round_robin_assign
  rw [if_neg]
  rw [hd, isEmpty_false_of_ne_nil ha]
  simp

theorem enum_map_fst_eq {α β : Type} (l : List α) (g : Nat × α → β) :
    (l.enum.map (fun p => ((p.2 : α), g p))).map Prod.fst = l := by
  rw [List.map_map]
  show l.enum.map Prod.snd = l
  exact List.enum_map_snd l

theorem round_robin_map_fst (dedup : List SummaryRow) (associates : List Associate)
    (d : MDate) (ha : associates ≠ []) :
    (round_robin_assign dedup associates d).map Prod.fst = sortByPhoneName dedup := by
  cases hd : dedup.isEmpty
  · rw [round_robin_eq_enum_map dedup associates d ha hd]
    exact enum_map_fst_eq _ _
  · have hnil : dedup = [] := by
      cases dedup with
      | nil => rfl
      | cons a t => cases hd
    rw [hnil]
    rfl

theorem rotatedAssociates_getD (associates : List Associate) (d : MDate) (k : Nat)
    (hk : k < associates.length) :
    (rotatedAssociates associates d).getD k default =
      associates.getD ((seedOf d % associates.length + k) % associates.length) default := by
  have hn : 0 < associates.length := Nat.lt_of_le_of_lt (Nat.zero_le k) hk
  have hoff : seedOf d % associates.length < associates.length := Nat.mod_lt _ hn
  unfold rotatedAssociates
  have hlen : (associates.drop (seedOf d % associates.length) ++
      associates.take (seedOf d % associates.length)).length = associates.length := by
    rw [List.length_append, List.length_drop, List.length_take,
      inf_eq_left.mpr (Nat.le_of_lt hoff)]
    omega
  rw [List.getD_eq_getElem _ _ (by rw [hlen]; exact hk)]
  rw [List.getElem_append]
  split
  · next h =>
    rw [List.length_drop] at h
    have hlt : seedOf d % associates.length + k < associates.length := by
      omega
    rw [List.getElem_drop]
    rw [Nat.mod_eq_of_lt hlt]
    exact (List.getD_eq_getElem _ _ hlt).symm
  · next h =>
    rw [List.length_drop] at h
    have hidxlt : k - (associates.length - seedOf d % associates.length) <
        associates.length := by
      omega
    have hmod : (seedOf d % associates.length + k) % associates.length =
        k - (associates.length - seedOf d % associates.length) := by
      have h2 : seedOf d % associates.length + k =
          (k - (associates.length - seedOf d % associates.length)) + associates.length := by
        omega
      rw [h2, Nat.add_mod_right]
      exact Nat.mod_eq_of_lt hidxlt
    rw [hmod]
    rw [List.getElem_take]
    rw [List.getD_eq_getElem _ _ hidxlt]
    simp only [List.length_drop]

theorem round_robin_getD (dedup : List SummaryRow) (associates : List Associate)
    (d : MDate) (ha : associates ≠ []) (i : Nat)
    (hi : i < (round_robin_assign dedup associates d).length) :
    ((round_robin_assign dedup associates d).getD i default).2 =
      ((associates.getD ((seedOf d % associates.length + i) % associates.length) default).name,
       (associates.getD ((seedOf d % associates.length + i) % associates.length) default).email) := by
  have hn : 0 < associates.length := List.length_pos.mpr ha
  cases hd : dedup.isEmpty
  · rw [round_robin_eq_enum_map dedup associates d ha hd] at hi ⊢
    rw [List.getD_eq_getElem _ _ hi]
    rw [List.getElem_map]
    rw [List.getElem_enum]
    show assignedPair associates d i = _
    unfold assignedPair
    rw [rotatedAssociates_getD associates d (i % associates.length)
      (Nat.mod_lt _ hn), Nat.add_mod_mod]
  · have hnil : dedup = [] := by
      cases dedup with
      | nil => rfl
      | cons a t => cases hd
    rw [hnil] at hi
    have hz : (round_robin_assign [] associates d).length = 0 := by
      unfold round_robin_assign
      simp
    rw [hz] at hi
    exact absurd hi (Nat.not_lt_zero i)

/-! ## Counting lemmas for round-robin fairness -/

theorem countP_zip_of_fst {α : Type} (p : Nat × α → Bool) (q : Nat → Bool)
    (hpq : ∀ i a, p (i, a) = q i) :
    ∀ (a : List Nat) (b : List α), a.length = b.length →
      (a.zip b).countP p = a.countP q := by
  intro a
  induction a with
  | nil => intro b h; rfl
  | cons x t ih =>
    intro b h
    cases b with
    | nil => cases h
    | cons y s =>
      have hl : t.length = s.length := by simpa using h
      simp only [List.zip_cons_cons, List.countP_cons]
      rw [ih s hl, hpq x y]

theorem countP_enum_of_fst {α : Type} (l : List α) (p : Nat × α → Bool) (q : Nat → Bool)
    (hpq : ∀ i a, p (i, a) = q i) :
    l.enum.countP p = (List.range l.length).countP q := by
  rw [List.enum_eq_zip_range]
  exact countP_zip_of_fst p q hpq _ l (by simp)

theorem countP_eq_one_unique {α : Type} {p : α → Bool} :
    ∀ {l : List α}, l.Nodup → ∀ a ∈ l, (∀ x ∈ l, (p x = true ↔ x = a)) →
      l.countP p = 1 := by
  intro l
  induction l with
  | nil => intro _ a ha; simp at ha
  | cons b t ih =>
    intro hnd a ha hiff
    rw [List.countP_cons]
    rcases List.mem_cons.mp ha with hab | hat
    · have hpb : p b = true := (hiff b (by simp)).mpr hab.symm
      have ht0 : t.countP p = 0 := by
        rw [List.countP_eq_zero]
        intro x hx hpx
        have hxa : x = a := (hiff x (List.mem_cons_of_mem _ hx)).mp hpx
        have hbt : b ∈ t := by
          rw [← hab, ← hxa]
          exact hx
        exact (List.nodup_cons.mp hnd).1 hbt
      rw [ht0, hpb]
      decide
    · have hpb : p b = false := by
        rcases hb : p b with _ | _
        · rfl
        · have hba := (hiff b (by simp)).mp hb
          exact absurd (hba ▸ hat) (List.nodup_cons.mp hnd).1
      rw [hpb]
      rw [ih (List.nodup_cons.mp hnd).2 a hat
        (fun x hx => hiff x (List.mem_cons_of_mem _ hx))]
      decide

theorem countP_range_block (n c j : Nat) (hn : 0 < n) (hj : j < n) :
    (List.range n).countP (fun i => (c + i) % n == j) = 1 := by
  set i0 := (j + (n - c % n)) % n with hi0def
  have hi0lt : i0 < n := Nat.mod_lt _ hn
  have hcmod : c % n < n := Nat.mod_lt _ hn
  have e1 : c + (j + (n - c % n)) = n * (c / n) + (n + j) := by
    have h2 : n * (c / n) + c % n = c := Nat.div_add_mod c n
    omega
  have e2 : (c + i0) % n = j := by
    calc (c + i0) % n = (c + (j + (n - c % n))) % n := by rw [hi0def, Nat.add_mod_mod]
      _ = (n * (c / n) + (n + j)) % n := by rw [e1]
      _ = (n + j) % n := Nat.mul_add_mod n (c / n) (n + j)
      _ = j % n := Nat.add_mod_left n j
      _ = j := Nat.mod_eq_of_lt hj
  apply countP_eq_one_unique (List.nodup_range n) i0 (List.mem_range.mpr hi0lt)
  intro i hi
  have hilt : i < n := List.mem_range.mp hi
  constructor
  · intro h
    have hji : (c + i) % n = j := by simpa using h
    have hmodeq : (c + i) % n = (c + i0) % n := by rw [hji, e2]
    have hcan : i % n = i0 % n := Nat.ModEq.add_left_cancel' c hmodeq
    rw [Nat.mod_eq_of_lt hilt, Nat.mod_eq_of_lt hi0lt] at hcan
    exact hcan
  · intro h
    rw [h]
    simp [e2]

theorem countP_range_mod (n c j : Nat) (hn : 0 < n) (hj : j < n) :
    ∀ q : Nat, (List.range (n * q)).countP (fun i => (c + i) % n == j) = q := by
  intro q
  induction q with
  | zero => simp
  | succ k ih =>
    have hsplit : n * (k + 1) = n * k + n := by ring
    rw [hsplit, List.range_add, List.countP_append, ih, List.countP_map]
    have hcongr := List.countP_congr (l := List.range n)
      (p := (fun i => (c + i) % n == j) ∘ (fun x => n * k + x))
      (q := fun i => (c + i) % n == j) ?_
    · rw [hcongr, countP_range_block n c j hn hj]
    · intro x _
      show ((c + (n * k + x)) % n == j) = true ↔ ((c + x) % n == j) = true
      have harith : c + (n * k + x) = (c + x) + n * k := by ring
      rw [harith, Nat.add_mul_mod_self_left]

theorem countP_range_ge (n c j N : Nat) (hn : 0 < n) (hj : j < n) :
    N / n ≤ (List.range N).countP (fun i => (c + i) % n == j) := by
  have hsplit : N = n * (N / n) + N % n := (Nat.div_add_mod N n).symm
  conv_rhs => rw [hsplit, List.range_add, List.countP_append]
  rw [countP_range_mod n c j hn hj (N / n)]
  omega

/-! ## C6, C8, C10: the round-robin assigner -/

/-- C6: `round_robin_assign` is the specified deterministic assignment: with
an empty associate list every identity gets an empty assignment; otherwise
the rows are the stable `(Phone, CustomerName)`-sort of the input, and the
`i`-th sorted row receives associate `(seed % n + i) % n` of the caller's
list, where `seed` is `year*10000 + month*100 + day` of the caller-supplied
reference date — i.e. the list rotated by the date-derived offset, cycled
with wrap-around.  Determinism over equal inputs is inherent: the model is a
pure function of `(table, associates, reference date)`, mirroring the
source's freedom from wall-clock or randomness. -/
theorem round_robin_assign_spec :
    (∀ (dedup : List SummaryRow) (d : MDate),
       round_robin_assign dedup [] d = dedup.map (fun r => (r, "", ""))) ∧
    (∀ (dedup : List SummaryRow) (associates : List Associate) (d : MDate),
       associates ≠ [] →
       (round_robin_assign dedup associates d).map Prod.fst = sortByPhoneName dedup ∧
       (∀ i : Nat, i < (round_robin_assign dedup associates d).length →
         ((round_robin_assign dedup associates d).getD i default).2 =
           ((associates.getD ((seedOf d % associates.length + i) % associates.length)
               default).name,
            (associates.getD ((seedOf d % associates.length + i) % associates.length)
               default).email))) :=
  ⟨round_robin_empty_assoc,
   fun dedup associates d ha =>
     ⟨round_robin_map_fst dedup associates d ha,
      fun i hi => round_robin_getD dedup associates d ha i hi⟩⟩

/-- An identity row for the assignment witnesses. -/
def idRowA : SummaryRow :=
  { CustomerName := "Ava", Phone := "+61400000001", Email := "", DealsCount := 1,
    Cars := "car", WhenExact := "", WhenRel := "", DealStages := "",
    StageHint := "unknown", VideoURLs := "", VehicleDetails := [] }

/-- A second identity row for the assignment witnesses. -/
def idRowB : SummaryRow :=
  { CustomerName := "Ben", Phone := "+61400000002", Email := "", DealsCount := 1,
    Cars := "car", WhenExact := "", WhenRel := "", DealStages := "",
    StageHint := "unknown", VideoURLs := "", VehicleDetails := [] }

/-- A roster entry for the assignment witnesses. -/
def assocAlice : Associate := ⟨"Alice", "alice@x.com"⟩

/-- Witness for C6 at concrete inputs, covering both the empty-roster branch
and the sorted-output equation. -/
theorem round_robin_assign_spec_witness :
    round_robin_assign [idRowA] [] ⟨2025, 10, 12⟩ = [idRowA].map (fun r => (r, "", "")) ∧
    (round_robin_assign [idRowA, idRowB] [assocAlice] ⟨2025, 10, 12⟩).map Prod.fst =
      sortByPhoneName [idRowA, idRowB] :=
  ⟨round_robin_assign_spec.1 [idRowA] ⟨2025, 10, 12⟩,
   (round_robin_assign_spec.2 [idRowA, idRowB] [assocAlice] ⟨2025, 10, 12⟩ (by decide)).1⟩

/-- C8: over `N` identities and `M` associates with `N ≥ M`, every associate
position `j` of the list receives at least `⌊N/M⌋` identities (counting rows
whose assignment pair equals that associate's name/email). -/
theorem round_robin_fair (dedup : List SummaryRow) (associates : List Associate)
    (d : MDate) (j : Nat) (hj : j < associates.length)
    (hNM : associates.length ≤ dedup.length) :
    dedup.length / associates.length ≤
      (round_robin_assign dedup associates d).countP
        (fun row => decide (row.2 = ((associates.getD j default).name,
                                     (associates.getD j default).email))) := by
  have hn : 0 < associates.length := Nat.lt_of_le_of_lt (Nat.zero_le j) hj
  have ha : associates ≠ [] := by
    intro h
    rw [h] at hn
    cases hn
  cases hd : dedup.isEmpty
  · rw [round_robin_eq_enum_map dedup associates d ha hd]
    rw [List.countP_map]
    rw [countP_enum_of_fst (sortByPhoneName dedup) _
      (fun i => decide (assignedPair associates d i =
        ((associates.getD j default).name, (associates.getD j default).email)))
      (fun i a => rfl)]
    have hlen : (sortByPhoneName dedup).length = dedup.length :=
      (List.perm_insertionSort _ _).length_eq
    rw [hlen]
    have hmono : (List.range dedup.length).countP
        (fun i => (seedOf d % associates.length + i) % associates.length == j) ≤
        (List.range dedup.length).countP
          (fun i => decide (assignedPair associates d i =
            ((associates.getD j default).name, (associates.getD j default).email))) := by
      apply List.countP_mono_left
      intro i _ hres
      have hresj : (seedOf d % associates.length + i) % associates.length = j := by
        simpa using hres
      have : assignedPair associates d i =
          ((associates.getD j default).name, (associates.getD j default).email) := by
        unfold assignedPair
        rw [rotatedAssociates_getD associates d (i % associates.length)
          (Nat.mod_lt _ hn), Nat.add_mod_mod, hresj]
      simp [this]
    calc dedup.length / associates.length
        ≤ (List.range dedup.length).countP
            (fun i => (seedOf d % associates.length + i) % associates.length == j) :=
          countP_range_ge associates.length (seedOf d % associates.length) j
            dedup.length hn hj
      _ ≤ _ := hmono
  · have hnil : dedup = [] := by
      cases dedup with
      | nil => rfl
      | cons a t => cases hd
    rw [hnil]
    simp

/-- Witness for C8: two identities, one associate, at least `⌊2/1⌋ = 2`
assignments. -/
theorem round_robin_fair_witness :
    ([idRowA, idRowB] : List SummaryRow).length / ([assocAlice] : List Associate).length ≤
      (round_robin_assign [idRowA, idRowB] [assocAlice] ⟨2025, 10, 12⟩).countP
        (fun row => decide (row.2 = ((([assocAlice] : List Associate).getD 0 default).name,
                                     (([assocAlice] : List Associate).getD 0 default).email))) :=
  round_robin_fair [idRowA, idRowB] [assocAlice] ⟨2025, 10, 12⟩ 0 (by decide) (by decide)

/-- C10: with a non-empty table and roster, `round_robin_assign` returns a
fresh list in which every input row appears exactly once with its row value
unchanged (the rows are merely reordered by the stable sort), extended with
exactly the two assignment components (`SalesAssociate`, `SalesEmail` — the
output element type); the input list itself is a value and is not mutated
(the source operates on `dedup_df.copy()`). -/
theorem round_robin_preserves_rows (dedup : List SummaryRow) (associates : List Associate)
    (d : MDate) (hd : dedup ≠ []) (ha : associates ≠ []) :
    ((round_robin_assign dedup associates d).map Prod.fst).Perm dedup ∧
    (round_robin_assign dedup associates d).length = dedup.length ∧
    (∀ r : SummaryRow,
       ((round_robin_assign dedup associates d).map Prod.fst).count r = dedup.count r) := by
  have h1 : (round_robin_assign dedup associates d).map Prod.fst = sortByPhoneName dedup :=
    round_robin_map_fst dedup associates d ha
  have hperm : ((round_robin_assign dedup associates d).map Prod.fst).Perm dedup := by
    rw [h1]
    exact List.perm_insertionSort _ _
  refine ⟨hperm, ?_, fun r => hperm.count_eq r⟩
  have := congrArg List.length h1
  rw [List.length_map] at this
  rw [this]
  exact (List.perm_insertionSort _ _).length_eq

/-- Witness for C10 at concrete inputs. -/
theorem round_robin_preserves_rows_witness :
    ((round_robin_assign [idRowB, idRowA] [assocAlice] ⟨2025, 10, 12⟩).map
      Prod.fst).Perm [idRowB, idRowA] :=
  (round_robin_preserves_rows [idRowB, idRowA] [assocAlice] ⟨2025, 10, 12⟩
    (by decide) (by decide)).1

end SalesConnector
